import Mathlib

/-
Verification development for the EmbedMan pipeline
(src/embed_man/embed_manager.py) against its specification.

The EmbedManager class delegates the byte store, the cache-backed
embedder and the chunk splitter to library components whose code is not
part of this repository; where a claim is decided by one of those
components, the corresponding definition is modelled from the
specification and says so in its doc comment.  Everything else is
translated directly from src/embed_man/embed_manager.py.
-/

set_option autoImplicit false

namespace EmbedMan

/-- An embedding vector.  The underlying model is a black box
`text -> fixed-length vector`; the numeric type of the entries is
irrelevant to every claim, so entries are integers. -/
abbrev Vec := List Int

/-- Errors raised by pipeline stages (Python exceptions), identified by
their message. -/
abbrev Err := String

/-- Modelled from the spec: the Key Deriver (section 4.1) maps
`(namespace, content)` to a deterministic cache key with no collisions
between distinct contents in a namespace and none between distinct
namespaces.  A hash with those properties is modelled as the injective
pairing of namespace and content. -/
abbrev CacheKey := String × String

/-- Modelled from the spec: `derive(namespace, content) -> CacheKey`,
a pure deterministic function. -/
def derive (ns content : String) : CacheKey := (ns, content)

/-- The contents of a byte store directory: one persisted vector per
cache key. -/
abbrev ByteStore := List (CacheKey × Vec)

/-- Modelled from the spec: Byte Store `get(key) -> bytes | absent`
(section 4.2). -/
def bsGet : ByteStore → CacheKey → Option Vec
  | [], _ => none
  | (k', v) :: rest, k => if k' = k then some v else bsGet rest k

/-- Modelled from the spec: Byte Store `put(key, bytes) -> success`
(section 4.2). -/
def bsPut (s : ByteStore) (k : CacheKey) (v : Vec) : ByteStore :=
  (k, v) :: s

/-- Modelled from the spec: Byte Store construction on a filesystem path
(section 4.2): storage-path unwritable is fatal at store-construction
time; construction on a writable path yields a handle on the directory.
Per-key writes on a constructed store are total (`bsPut`): an unwritable
path can only fail here, never at a later write. -/
def constructByteStore (writable : Bool) (dir : String) : Except Err String :=
  if writable then .ok dir else .error ("unwritable cache directory: " ++ dir)

/-- The result of one cache-backed `embed_many` call: the vectors in
input order, the byte store after the call's write-through puts, and the
list of texts sent to the underlying model during the call. -/
structure EmbedOut where
  vectors : List Vec
  store : ByteStore
  invoked : List String
deriving DecidableEq

/-- Modelled from the spec: the Cache-Backed Embedder's
`embed_many` (section 4.3).  Texts are partitioned into cached and
uncached by probing the byte store under the configured namespace;
duplicate texts within the call are deduplicated before the underlying
model call; every freshly computed embedding is persisted write-through;
cached vectors are read back from the store and merged into input
order. -/
def embedMany (model : String → Vec) (ns : String) (texts : List String)
    (store : ByteStore) : EmbedOut :=
  let uncached := (texts.filter fun t => (bsGet store (derive ns t)).isNone).dedup
  let store' := uncached.foldl (fun s t => bsPut s (derive ns t) (model t)) store
  { vectors := texts.map fun t => (bsGet store' (derive ns t)).getD (model t)
    store := store'
    invoked := uncached }

/-- A sequence of `embed_many` calls sharing one cache directory and
namespace, the store surviving from each call to the next (process
restarts preserve the store, so calls of separate runs are calls of one
sequence).  Returns the final store and the concatenated log of all
texts sent to the underlying model. -/
def runCalls (model : String → Vec) (ns : String) (calls : List (List String))
    (store : ByteStore) : ByteStore × List String :=
  calls.foldl
    (fun acc texts =>
      let r := embedMany model ns texts acc.1
      (r.store, acc.2 ++ r.invoked))
    (store, [])

/-- A document produced by the external loader, reduced to its content
string (metadata plays no role in any claim). -/
abbrev Doc := String

/-- The persistent filesystem state relevant to the pipeline: the
contents of every cache directory, keyed by directory path. -/
abbrev FS := List (String × ByteStore)

/-- Contents of a cache directory (empty when the directory has no
entries yet). -/
def fsGet : FS → String → ByteStore
  | [], _ => []
  | (d', st) :: rest, d => if d' = d then st else fsGet rest d

/-- Replace the contents of a cache directory. -/
def fsSet (fs : FS) (d : String) (st : ByteStore) : FS :=
  (d, st) :: fs

/-- The language enum of the splitter/parser, a closed tagged variant
(src uses `Language.PYTHON`). -/
inductive PLanguage where
  | python
deriving DecidableEq

/-- The EmbedManager configuration, one field per attribute assigned in
`EmbedManager.__init__` (src/embed_man/embed_manager.py lines 47-61). -/
structure EmbedManager where
  path : String
  glob_rule : String
  suffixes : List String
  exclude : List String
  language : PLanguage
  parser_threshold : Nat
  logging_level : Option String
  chunk_size : Nat
  chunk_overlap : Nat
  cache_dir : String
  namespace_cache : String
  search_type : String
  search_kwargs : List (String × Int)
  use_cache : Bool
deriving DecidableEq

/-- An EmbedManager built with every `__init__` default
(src lines 40-45), with `cwd` standing for `os.getcwd()`.  The mutable
default objects are modelled by value here; their object identity
across instances is modelled separately below. -/
def defaultEmbedManager (cwd : String) : EmbedManager :=
  { path := cwd
    glob_rule := "**/*"
    suffixes := [".py"]
    exclude := ["**/non-utf8-encoding.py"]
    language := .python
    parser_threshold := 500
    logging_level := none
    chunk_size := 2000
    chunk_overlap := 200
    cache_dir := cwd ++ "/cache"
    namespace_cache := "cache_embeddings"
    search_type := "mmr"
    search_kwargs := [("k", 8)]
    use_cache := true }

/-- The retriever returned by `generate_embeddings`: the indexed texts
with their vectors, configured with the search type and kwargs passed to
`db.as_retriever` (src lines 122-123). -/
structure Retriever where
  texts : List String
  vectors : List Vec
  search_type : String
  search_kwargs : List (String × Int)
deriving DecidableEq

/-- Observable side effects of one `generate_embeddings` call: the cache
directories for which a `LocalFileStore` was constructed, whether a
`CacheBackedEmbeddings` wrapper was constructed, and the texts sent to
the underlying embedding model. -/
structure EffectLog where
  stores_constructed : List String
  cache_backed : Bool
  invoked : List String
deriving DecidableEq

/-- Translated from `EmbedManager.generate_embeddings`
(src lines 102-123): when `use_cache` holds, a `LocalFileStore` on
`self.cache_dir` and a `CacheBackedEmbeddings` wrapper under
`self.namespace_cache` are constructed and embedding goes through the
cache; otherwise the underlying model (`GPT4AllEmbeddings`) is used
directly.  `Chroma.from_documents` embeds the texts through the chosen
embedder, and `db.as_retriever` is configured with `self.search_type`
and `self.search_kwargs`.  Returns the retriever, the filesystem after
the call, and the call's effect log. -/
def EmbedManager.generate_embeddings (model : String → Vec) (m : EmbedManager)
    (texts : List String) (use_cache : Bool) (fs : FS) :
    Retriever × FS × EffectLog :=
  if use_cache then
    let cache_store := fsGet fs m.cache_dir
    let r := embedMany model m.namespace_cache texts cache_store
    ({ texts := texts
       vectors := r.vectors
       search_type := m.search_type
       search_kwargs := m.search_kwargs },
     fsSet fs m.cache_dir r.store,
     { stores_constructed := [m.cache_dir]
       cache_backed := true
       invoked := r.invoked })
  else
    ({ texts := texts
       vectors := texts.map model
       search_type := m.search_type
       search_kwargs := m.search_kwargs },
     fs,
     { stores_constructed := []
       cache_backed := false
       invoked := texts })

/-- A call of `generate_embeddings` that omits the `use_cache` argument:
the Python signature `def generate_embeddings(self, texts, use_cache=True)`
(src line 102) supplies the literal default `True`, independently of
`self.use_cache`. -/
def EmbedManager.generate_embeddings_default (model : String → Vec)
    (m : EmbedManager) (texts : List String) (fs : FS) :
    Retriever × FS × EffectLog :=
  m.generate_embeddings model texts true fs

/-- Modelled from the spec: the Chunking Pipeline's configuration check
(section 4.4): "overlap must not exceed chunk size", so splitter
construction fails exactly when `chunk_overlap` exceeds `chunk_size`.
(Section 7 instead lists "overlap >= size" as invalid; the two sentences
disagree at `overlap = size`, and section 4.4 is the Chunking Pipeline's
own contract, so it is followed here.)  The check runs when the splitter
is constructed, which `split_documents` does on each call (src lines
95-97); `EmbedManager.__init__` performs no validation. -/
def mkSplitter (chunk_size chunk_overlap : Nat) : Except Err (Nat × Nat) :=
  if chunk_size < chunk_overlap then
    .error "chunk overlap larger than chunk size"
  else
    .ok (chunk_size, chunk_overlap)

/-- Translated from `EmbedManager.split_documents` (src lines 86-100):
construct the splitter from the instance's chunk size and overlap, then
split.  The language-aware splitting itself is an external black box
`split_core : documents -> ordered chunks`. -/
def EmbedManager.split_documents (split_core : List Doc → List String)
    (m : EmbedManager) (documents : List Doc) : Except Err (List String) :=
  match mkSplitter m.chunk_size m.chunk_overlap with
  | .error e => .error e
  | .ok _ => .ok (split_core documents)

/-- Translated from `EmbedManager.run` (src lines 125-145):
`load_documents`, then `split_documents`, then
`generate_embeddings(texts, use_cache=self.use_cache)`.  The
`except Exception` clause logs and bare-`raise`s, so every stage error
passes through unchanged.  `load_result` is the outcome of the external
loader (`load_documents` merely delegates to it, src lines 68-84);
`embed_err` is `some e` when the underlying embedding service raises
during the embedding stage, in which case the whole batch fails and the
filesystem is returned as it was.  Returns the stage outcome paired with
the filesystem after the run. -/
def EmbedManager.run (model : String → Vec) (load_result : Except Err (List Doc))
    (split_core : List Doc → List String) (embed_err : Option Err)
    (m : EmbedManager) (fs : FS) :
    Except Err (Retriever × EffectLog) × FS :=
  match load_result with
  | .error e => (.error e, fs)
  | .ok documents =>
    match m.split_documents split_core documents with
    | .error e => (.error e, fs)
    | .ok texts =>
      match embed_err with
      | some e => (.error e, fs)
      | none =>
        let out := m.generate_embeddings model texts m.use_cache fs
        (.ok (out.1, out.2.2), out.2.1)

/-- A Python object reference (identity of a mutable object). -/
abbrev Ref := Nat

/-- The heap of mutable Python objects relevant to the configuration:
list objects of strings and dict objects mapping strings to integers. -/
structure PyHeap where
  next : Ref
  str_lists : List (Ref × List String)
  int_dicts : List (Ref × List (String × Int))
deriving DecidableEq

/-- Read a list object. -/
def heapGetList : List (Ref × List String) → Ref → List String
  | [], _ => []
  | (r', l) :: rest, r => if r' = r then l else heapGetList rest r

/-- Read a dict object. -/
def heapGetDict : List (Ref × List (String × Int)) → Ref → List (String × Int)
  | [], _ => []
  | (r', d) :: rest, r => if r' = r then d else heapGetDict rest r

/-- In-place `list.append` on the object a reference designates. -/
def listsAppend : List (Ref × List String) → Ref → String → List (Ref × List String)
  | [], _, _ => []
  | (r', l) :: rest, r, s =>
    if r' = r then (r', l ++ [s]) :: rest else (r', l) :: listsAppend rest r s

/-- `list.append(s)` through a reference, mutating the heap. -/
def heapAppendList (h : PyHeap) (r : Ref) (s : String) : PyHeap :=
  { h with str_lists := listsAppend h.str_lists r s }

/-- Allocate a fresh list object. -/
def heapAllocList (h : PyHeap) (l : List String) : Ref × PyHeap :=
  (h.next,
   { h with next := h.next + 1, str_lists := (h.next, l) :: h.str_lists })

/-- Allocate a fresh dict object. -/
def heapAllocDict (h : PyHeap) (d : List (String × Int)) : Ref × PyHeap :=
  (h.next,
   { h with next := h.next + 1, int_dicts := (h.next, d) :: h.int_dicts })

/-- The list object created once for the default `suffixes=[".py"]`. -/
def suffixes_default_ref : Ref := 0

/-- The list object created once for the default
`exclude=["**/non-utf8-encoding.py"]`. -/
def exclude_default_ref : Ref := 1

/-- The dict object created once for the default
`search_kwargs=(k: 8)`. -/
def search_kwargs_default_ref : Ref := 2

/-- The heap right after the module is imported.  CPython evaluates a
parameter's default value expression once, when the `def` statement of
`EmbedManager.__init__` executes at import time (src lines 40-45), so
the three mutable default objects exist once, before any instance is
constructed. -/
def moduleHeap : PyHeap :=
  { next := 3
    str_lists := [(suffixes_default_ref, [".py"]),
                  (exclude_default_ref, ["**/non-utf8-encoding.py"])]
    int_dicts := [(search_kwargs_default_ref, [("k", 8)])] }

/-- The mutable configuration objects an EmbedManager instance holds
references to (`self.suffixes`, `self.exclude`, `self.search_kwargs`,
src lines 50-51 and 60). -/
structure MgrObjects where
  suffixes_ref : Ref
  exclude_ref : Ref
  search_kwargs_ref : Ref
deriving DecidableEq

/-- Object-identity view of `EmbedManager.__init__`: each argument the
caller passes explicitly is a freshly allocated object, and each omitted
argument is bound to the module-level default object evaluated once
at import (CPython default-argument semantics); `__init__` stores the
references without copying. -/
def initObjects (h : PyHeap) (suffixes : Option (List String))
    (exclude : Option (List String))
    (search_kwargs : Option (List (String × Int))) : MgrObjects × PyHeap :=
  let (sref, h1) := match suffixes with
    | some l => heapAllocList h l
    | none => (suffixes_default_ref, h)
  let (eref, h2) := match exclude with
    | some l => heapAllocList h1 l
    | none => (exclude_default_ref, h1)
  let (kref, h3) := match search_kwargs with
    | some d => heapAllocDict h2 d
    | none => (search_kwargs_default_ref, h2)
  ({ suffixes_ref := sref, exclude_ref := eref, search_kwargs_ref := kref }, h3)

/-! Lemmas about the byte store and the cache-backed embedder. -/

theorem bsGet_bsPut_self (s : ByteStore) (k : CacheKey) (v : Vec) :
    bsGet (bsPut s k v) k = some v := by
  simp [bsPut, bsGet]

theorem isSome_bsGet_bsPut (s : ByteStore) (k k' : CacheKey) (v : Vec)
    (h : (bsGet s k).isSome = true) :
    (bsGet (bsPut s k' v) k).isSome = true := by
  simp only [bsPut, bsGet]
  split
  · rfl
  · exact h

theorem isSome_bsGet_foldl_puts (model : String → Vec) (ns : String)
    (l : List String) :
    ∀ (s : ByteStore) (k : CacheKey), (bsGet s k).isSome = true →
      (bsGet (l.foldl (fun s t => bsPut s (derive ns t) (model t)) s) k).isSome
        = true := by
  induction l with
  | nil => intro s k h; exact h
  | cons u rest ih =>
    intro s k h
    exact ih (bsPut s (derive ns u) (model u)) k
      (isSome_bsGet_bsPut s k (derive ns u) (model u) h)

theorem isSome_bsGet_foldl_mem (model : String → Vec) (ns : String)
    (l : List String) :
    ∀ (s : ByteStore) (t : String), t ∈ l →
      (bsGet (l.foldl (fun s t => bsPut s (derive ns t) (model t)) s)
        (derive ns t)).isSome = true := by
  induction l with
  | nil => intro s t h; cases h
  | cons u rest ih =>
    intro s t h
    rcases List.mem_cons.mp h with rfl | hrest
    · exact isSome_bsGet_foldl_puts model ns rest _ _
        (by rw [bsGet_bsPut_self]; rfl)
    · exact ih _ t hrest

theorem mem_invoked_iff (model : String → Vec) (ns : String)
    (texts : List String) (store : ByteStore) (t : String) :
    t ∈ (embedMany model ns texts store).invoked ↔
      t ∈ texts ∧ bsGet store (derive ns t) = none := by
  simp [embedMany, List.mem_dedup, List.mem_filter, Option.isNone_iff_eq_none]

theorem invoked_nodup (model : String → Vec) (ns : String)
    (texts : List String) (store : ByteStore) :
    (embedMany model ns texts store).invoked.Nodup :=
  List.nodup_dedup _

theorem isSome_bsGet_embedMany_of_isSome (model : String → Vec) (ns : String)
    (texts : List String) (store : ByteStore) (k : CacheKey)
    (h : (bsGet store k).isSome = true) :
    (bsGet (embedMany model ns texts store).store k).isSome = true :=
  isSome_bsGet_foldl_puts model ns _ store k h

theorem isSome_bsGet_embedMany_of_invoked (model : String → Vec) (ns : String)
    (texts : List String) (store : ByteStore) (t : String)
    (h : t ∈ (embedMany model ns texts store).invoked) :
    (bsGet (embedMany model ns texts store).store (derive ns t)).isSome = true :=
  isSome_bsGet_foldl_mem model ns _ store t h

theorem runCalls_log_nodup_aux (model : String → Vec) (ns : String)
    (calls : List (List String)) :
    ∀ (store : ByteStore) (log : List String), log.Nodup →
      (∀ t, t ∈ log → (bsGet store (derive ns t)).isSome = true) →
      (calls.foldl
        (fun acc texts =>
          let r := embedMany model ns texts acc.1
          (r.store, acc.2 ++ r.invoked))
        (store, log)).2.Nodup := by
  induction calls with
  | nil => intro store log hnd _; exact hnd
  | cons texts rest ih =>
    intro store log hnd hmem
    simp only [List.foldl_cons]
    apply ih
    · refine List.Nodup.append hnd (invoked_nodup model ns texts store) ?_
      intro t htlog htinv
      have hnone := ((mem_invoked_iff model ns texts store t).mp htinv).2
      have hsome := hmem t htlog
      rw [hnone] at hsome
      exact Bool.noConfusion hsome
    · intro t ht
      rcases List.mem_append.mp ht with hlog | hinv
      · exact isSome_bsGet_embedMany_of_isSome model ns texts store _
          (hmem t hlog)
      · exact isSome_bsGet_embedMany_of_invoked model ns texts store t hinv

/-- C1: with caching enabled, across any sequence of embedding calls
sharing one cache directory and namespace (the byte store flowing from
each call to the next, surviving restarts), the concatenated log of
texts sent to the underlying model contains no text twice: each text is
computed at most once, a repeated text is a pure cache hit, and two
identical texts within one call cause a single model invocation. -/
theorem cached_model_invoked_at_most_once_per_text (model : String → Vec)
    (ns : String) (calls : List (List String)) (store : ByteStore) :
    (runCalls model ns calls store).2.Nodup := by
  have h := runCalls_log_nodup_aux model ns calls store [] List.nodup_nil
    (fun t ht => absurd ht (List.not_mem_nil t))
  exact h

/-- C2: `generate_embeddings(texts, use_cache=False)` constructs no byte
store and no cache-backed wrapper, uses the underlying model directly,
leaves the filesystem exactly as it was (nothing written), and returns a
retriever that does not depend on the cache contents (nothing read). -/
theorem generate_embeddings_no_cache_bypasses_store (model : String → Vec)
    (m : EmbedManager) (texts : List String) (fs fs2 : FS) :
    (m.generate_embeddings model texts false fs).2.1 = fs
    ∧ (m.generate_embeddings model texts false fs).2.2.stores_constructed = []
    ∧ (m.generate_embeddings model texts false fs).2.2.cache_backed = false
    ∧ (m.generate_embeddings model texts false fs).1.vectors = texts.map model
    ∧ (m.generate_embeddings model texts false fs).1 =
        (m.generate_embeddings model texts false fs2).1 := by
  refine ⟨rfl, rfl, rfl, rfl, rfl⟩

/-- C3: `run` composes the stages in the order load, split, embed: when
the loader yields `documents` and the splitter yields `texts`, `run`
returns exactly the retriever, the effect log and the filesystem of
`generate_embeddings(texts, use_cache=self.use_cache)`; when the loader
or the splitter fails, the filesystem (cache state) is untouched, so
only the embedder stage touches the cache. -/
theorem run_composes_load_split_embed (model : String → Vec)
    (split_core : List Doc → List String) (m : EmbedManager) (fs : FS)
    (documents : List Doc) (texts : List String) (e : Err)
    (hsplit : m.split_documents split_core documents = Except.ok texts) :
    m.run model (Except.ok documents) split_core none fs =
      (Except.ok ((m.generate_embeddings model texts m.use_cache fs).1,
                  (m.generate_embeddings model texts m.use_cache fs).2.2),
       (m.generate_embeddings model texts m.use_cache fs).2.1)
    ∧ (m.run model (Except.error e) split_core none fs).2 = fs
    ∧ (∀ (docs2 : List Doc) (e2 : Err),
        m.split_documents split_core docs2 = Except.error e2 →
        (m.run model (Except.ok docs2) split_core none fs).2 = fs) := by
  refine ⟨?_, rfl, ?_⟩
  · simp only [EmbedManager.run, hsplit]
  · intro docs2 e2 hsplit2
    simp only [EmbedManager.run, hsplit2]

/-- Closed instance of `run_composes_load_split_embed`: with the default
configuration, identity splitting and one loaded document, `run` equals
the embed stage applied to the split output. -/
theorem run_composes_load_split_embed_witness :
    (defaultEmbedManager "/w").run (fun _ => ([] : Vec)) (Except.ok ["d"]) id
        none []
      = (Except.ok
          (((defaultEmbedManager "/w").generate_embeddings (fun _ => ([] : Vec))
              ["d"] (defaultEmbedManager "/w").use_cache []).1,
           ((defaultEmbedManager "/w").generate_embeddings (fun _ => ([] : Vec))
              ["d"] (defaultEmbedManager "/w").use_cache []).2.2),
         ((defaultEmbedManager "/w").generate_embeddings (fun _ => ([] : Vec))
            ["d"] (defaultEmbedManager "/w").use_cache []).2.1) :=
  (run_composes_load_split_embed (fun _ => ([] : Vec)) id
    (defaultEmbedManager "/w") [] ["d"] ["d"] "e" rfl).1

/-- C4: `run` surfaces the loader's, the splitter's and the embedding
stage's errors to its caller unchanged, and yields a retriever only when
all three stages succeed. -/
theorem run_surfaces_stage_errors (model : String → Vec)
    (split_core : List Doc → List String) (m : EmbedManager) (fs : FS)
    (e : Err) (documents : List Doc) (texts : List String)
    (load_result : Except Err (List Doc)) (embed_err : Option Err) :
    (m.run model (Except.error e) split_core embed_err fs = (Except.error e, fs))
    ∧ (m.split_documents split_core documents = Except.error e →
        m.run model (Except.ok documents) split_core embed_err fs
          = (Except.error e, fs))
    ∧ (m.split_documents split_core documents = Except.ok texts →
        m.run model (Except.ok documents) split_core (some e) fs
          = (Except.error e, fs))
    ∧ ((m.run model load_result split_core embed_err fs).1.isOk = true →
        ∃ docs ts, load_result = Except.ok docs
          ∧ m.split_documents split_core docs = Except.ok ts
          ∧ embed_err = none) := by
  refine ⟨rfl, ?_, ?_, ?_⟩
  · intro hsplit
    simp only [EmbedManager.run, hsplit]
  · intro hsplit
    simp only [EmbedManager.run, hsplit]
  · intro hok
    match hload : load_result with
    | .error e2 => exact absurd hok (by simp [EmbedManager.run, Except.isOk, Except.toBool])
    | .ok docs =>
      match hsplit : m.split_documents split_core docs with
      | .error e2 =>
        rw [EmbedManager.run, hsplit] at hok
        exact absurd hok (by simp [Except.isOk, Except.toBool])
      | .ok ts =>
        match hemb : embed_err with
        | some e2 =>
          rw [EmbedManager.run, hsplit] at hok
          exact absurd hok (by simp [Except.isOk, Except.toBool])
        | none => exact ⟨docs, ts, rfl, hsplit, rfl⟩

/-- Closed instance of `run_surfaces_stage_errors`: a loader error and an
embedding-service error each come back unchanged from `run` under the
default configuration. -/
theorem run_surfaces_stage_errors_witness :
    ((defaultEmbedManager "/w").run (fun _ => ([] : Vec)) (Except.error "boom")
        id none [] = (Except.error "boom", []))
    ∧ ((defaultEmbedManager "/w").run (fun _ => ([] : Vec)) (Except.ok ["d"])
        id (some "boom") [] = (Except.error "boom", [])) := by
  have h := run_surfaces_stage_errors (fun _ => ([] : Vec)) id
    (defaultEmbedManager "/w") [] "boom" ["d"] ["d"] (Except.ok ["d"]) none
  exact ⟨h.1, h.2.2.1 rfl⟩

/-- C5 counterexample: a configuration with `chunk_overlap` equal to
`chunk_size` (2000 = 2000, so overlap not strictly smaller than size) is
accepted silently — `__init__` stores it unchanged and `split_documents`
performs the chunking and returns chunks instead of a configuration
error. -/
theorem overlap_equal_to_chunk_size_is_accepted :
    EmbedManager.split_documents id
        { defaultEmbedManager "/w" with chunk_size := 2000, chunk_overlap := 2000 }
        ["doc"]
      = Except.ok ["doc"]
    ∧ ({ defaultEmbedManager "/w" with
          chunk_size := 2000, chunk_overlap := 2000 } : EmbedManager).chunk_overlap
        = 2000 :=
  ⟨rfl, rfl⟩

/-- C5 (amended): `EmbedManager.__init__` performs no validation; the
splitter construction performed on each `split_documents` call rejects a
configuration exactly when the overlap strictly exceeds the chunk size,
so `chunk_overlap = chunk_size` is accepted and chunked while
`chunk_overlap > chunk_size` yields an error and no chunking. -/
theorem split_documents_rejects_overlap_exceeding_size
    (split_core : List Doc → List String) (m : EmbedManager)
    (documents : List Doc) :
    (m.chunk_overlap ≤ m.chunk_size →
      m.split_documents split_core documents = Except.ok (split_core documents))
    ∧ (m.chunk_size < m.chunk_overlap →
      (m.split_documents split_core documents).isOk = false) := by
  constructor
  · intro hle
    have hnot : ¬ m.chunk_size < m.chunk_overlap := Nat.not_lt.mpr hle
    simp [EmbedManager.split_documents, mkSplitter, hnot]
  · intro hlt
    simp [EmbedManager.split_documents, mkSplitter, hlt, Except.isOk,
      Except.toBool]

/-- Closed instance of `split_documents_rejects_overlap_exceeding_size`:
the default configuration (overlap 200, size 2000) is chunked, and a
configuration with overlap 3000 over size 2000 yields an error. -/
theorem split_documents_rejects_overlap_exceeding_size_witness :
    EmbedManager.split_documents id (defaultEmbedManager "/w") ["d"]
        = Except.ok ["d"]
    ∧ (EmbedManager.split_documents id
        { defaultEmbedManager "/w" with chunk_overlap := 3000 } ["d"]).isOk
        = false := by
  refine ⟨(split_documents_rejects_overlap_exceeding_size id
      (defaultEmbedManager "/w") ["d"]).1 (by decide), ?_⟩
  exact (split_documents_rejects_overlap_exceeding_size id
    { defaultEmbedManager "/w" with chunk_overlap := 3000 } ["d"]).2 (by decide)

/-- C6 counterexample: two EmbedManager instances constructed with
default arguments hold the same `suffixes` list object (CPython
evaluates the default `[".py"]` once, at `def` time), so appending
".txt" through the first instance's reference changes what the second
instance reads from `[".py"]` to `[".py", ".txt"]`. -/
theorem default_suffixes_mutation_reaches_other_instance :
    heapGetList
        (heapAppendList
          (initObjects (initObjects moduleHeap none none none).2 none none none).2
          (initObjects moduleHeap none none none).1.suffixes_ref ".txt").str_lists
        (initObjects (initObjects moduleHeap none none none).2
          none none none).1.suffixes_ref
      = [".py", ".txt"]
    ∧ heapGetList
        (initObjects (initObjects moduleHeap none none none).2
          none none none).2.str_lists
        (initObjects (initObjects moduleHeap none none none).2
          none none none).1.suffixes_ref
      = [".py"] :=
  ⟨rfl, rfl⟩

/-- C6 (amended): instances constructed with default arguments share the
module-level default objects for `suffixes`, `exclude` and
`search_kwargs` — the two instances hold identical references, and any
string appended through the first instance's `suffixes` reference is
read back through the second instance's reference; only explicitly
passed arguments produce fresh objects (an explicit `suffixes` is bound
to a newly allocated reference, the heap's next free one). -/
theorem default_config_objects_shared_across_instances (s : String)
    (l : List String) (h : PyHeap) :
    (initObjects moduleHeap none none none).1
      = (initObjects (initObjects moduleHeap none none none).2
          none none none).1
    ∧ heapGetList
        (heapAppendList
          (initObjects (initObjects moduleHeap none none none).2 none none none).2
          (initObjects moduleHeap none none none).1.suffixes_ref s).str_lists
        (initObjects (initObjects moduleHeap none none none).2
          none none none).1.suffixes_ref
      = [".py", s]
    ∧ (initObjects h (some l) none none).1.suffixes_ref = h.next :=
  ⟨rfl, rfl, rfl⟩

/-- C7: with the byte store modelled from the spec, construction on an
unwritable path fails and construction on a writable path succeeds, so
unwritability surfaces at store-construction time; per-key writes on a
store are total and round-trip, so the failure is not deferred to the
first per-key write. -/
theorem byte_store_unwritable_fatal_at_construction (writable : Bool)
    (dir : String) (st : ByteStore) (k : CacheKey) (v : Vec) :
    (constructByteStore writable dir).isOk = writable
    ∧ bsGet (bsPut st k v) k = some v := by
  constructor
  · cases writable <;> rfl
  · exact bsGet_bsPut_self st k v

/-- C9: the retriever returned by `generate_embeddings` carries exactly
the instance's `search_type` and `search_kwargs`, whether or not the
cache is used; under the default configuration those are "mmr" and
`k = 8`. -/
theorem retriever_configured_from_instance (model : String → Vec)
    (m : EmbedManager) (texts : List String) (use_cache : Bool) (fs : FS)
    (cwd : String) :
    (m.generate_embeddings model texts use_cache fs).1.search_type
        = m.search_type
    ∧ (m.generate_embeddings model texts use_cache fs).1.search_kwargs
        = m.search_kwargs
    ∧ (defaultEmbedManager cwd).search_type = "mmr"
    ∧ (defaultEmbedManager cwd).search_kwargs = [("k", 8)] := by
  refine ⟨?_, ?_, rfl, rfl⟩ <;>
    cases use_cache <;> rfl

/-- C10: the `use_cache=True` default of `generate_embeddings` is
independent of the instance's `use_cache` attribute: on an instance
constructed with `use_cache=False`, a call omitting the argument still
constructs the cache store and wrapper, while `run`, which passes
`use_cache=self.use_cache` explicitly, reaches the embed stage with the
cache bypassed (no store constructed). -/
theorem generate_embeddings_default_ignores_instance_flag
    (model : String → Vec) (m : EmbedManager) (texts : List String) (fs : FS)
    (split_core : List Doc → List String) (documents : List Doc)
    (ts : List String) (hflag : m.use_cache = false)
    (hsplit : m.split_documents split_core documents = Except.ok ts) :
    (m.generate_embeddings_default model texts fs).2.2.stores_constructed
        = [m.cache_dir]
    ∧ (m.generate_embeddings_default model texts fs).2.2.cache_backed = true
    ∧ m.run model (Except.ok documents) split_core none fs
        = (Except.ok ((m.generate_embeddings model ts false fs).1,
                      (m.generate_embeddings model ts false fs).2.2),
           (m.generate_embeddings model ts false fs).2.1)
    ∧ (m.generate_embeddings model ts false fs).2.2.stores_constructed
        = [] := by
  refine ⟨rfl, rfl, ?_, rfl⟩
  simp only [EmbedManager.run, hsplit, hflag]

/-- Closed instance of
`generate_embeddings_default_ignores_instance_flag` at an instance with
`use_cache=False`: the argument-omitting call constructs the cache store
on the instance's cache directory while `run`'s embed stage constructs
none. -/
theorem generate_embeddings_default_ignores_instance_flag_witness :
    (EmbedManager.generate_embeddings_default (fun _ => ([] : Vec))
        { defaultEmbedManager "/w" with use_cache := false } ["t"]
        []).2.2.stores_constructed
      = [({ defaultEmbedManager "/w" with use_cache := false }
          : EmbedManager).cache_dir]
    ∧ (EmbedManager.generate_embeddings (fun _ => ([] : Vec))
        { defaultEmbedManager "/w" with use_cache := false } ["t"] false
        []).2.2.stores_constructed
      = [] := by
  have h := generate_embeddings_default_ignores_instance_flag
    (fun _ => ([] : Vec)) { defaultEmbedManager "/w" with use_cache := false }
    ["t"] [] id ["t"] ["t"] rfl rfl
  exact ⟨h.1, h.2.2.2⟩

end EmbedMan
